import Mathlib

/-!
# Verification of the PS2 multiplayer relay server (`src/server.js`)

This file gives a shallow embedding of the state-synchronization engine of the
server: the `GameServer` class of the hardest version of `src/server.js`
(the version with the inbound message queue, payload validation and
per-player counters), and proves properties of its operations.

Modelling conventions:

* JS `Map` objects (`this.players`, `this.connections`) and the plain object
  `this.gameState.players` are modelled as association lists with JS `Map`
  semantics: `mset` replaces the value at an existing key in place (keeping
  insertion order) or appends a fresh key at the end, `mdel` removes a key,
  `mget` looks a key up.
* JSON values carried by inbound messages are modelled by `JSValue`
  (`undefined` is included because property access on a parsed object can
  yield it).  `JSON.parse` of a raw frame either throws or yields a value;
  raw frames are therefore modelled by `Raw` together with `jsonParse`.
* `Date.now()`, `ws.readyState === OPEN`, and whether `ws.send` throws are
  ambient facts of the environment at the moment a handler runs; they are
  passed in explicitly as an `Env`.
* Connection handles (`ws` objects) are opaque; they are modelled as `Nat`.
* Outbound effects (a `ws.send` that succeeded, a `ws.close(code, reason)`,
  a `setTimeout`-scheduled join/leave announcement) are recorded in an event
  list returned next to the updated server state.
* `gameState.gameTime` is a JS double advanced by `1000 / 20 = 50` each tick;
  since `50` and all its partial sums below `2^53` are exactly representable
  in binary64, the accumulator is modelled exactly by a rational number.
-/

set_option autoImplicit false

namespace GameServer

/-! ## JavaScript values -/

/-- A JavaScript value as it can appear in a parsed inbound message or in a
player's transform fields.  Objects are association lists of fields. -/
inductive JSValue where
  | vUndefined : JSValue
  | vNull : JSValue
  | vBool (b : Bool) : JSValue
  | vNum (n : Int) : JSValue
  | vStr (s : String) : JSValue
  | vObj (fields : List (String × JSValue)) : JSValue

/-- JS truthiness: `undefined`, `null`, `false`, `0` and `""` are falsy,
every object (including the empty object) is truthy. -/
def truthy : JSValue → Bool
  | .vUndefined => false
  | .vNull => false
  | .vBool b => b
  | .vNum n => n != 0
  | .vStr s => s != ""
  | .vObj _ => true

/-- `typeof x === 'object'`: true exactly for objects and for `null`. -/
def isObjType : JSValue → Bool
  | .vObj _ => true
  | .vNull => true
  | _ => false

/-- A structured record in the sense of the spec: an actual object
(`null` and primitives are not). -/
def isStructuredRecord : JSValue → Bool
  | .vObj _ => true
  | _ => false

/-- Property access `v.field`: on an object, the first binding of the field
(or `undefined` when absent); on primitives, `undefined`.  (On `null` and
`undefined` it throws in JS; call sites below model that throw explicitly.) -/
def jsGet (v : JSValue) (field : String) : JSValue :=
  match v with
  | .vObj fields =>
    match fields.lookup field with
    | some x => x
    | none => .vUndefined
  | _ => .vUndefined

/-- A raw inbound WebSocket frame, classified by whether `JSON.parse`
succeeds on it. -/
inductive Raw where
  | bad (text : String) : Raw
  | good (value : JSValue) : Raw

/-- `JSON.parse(message)`: throws (`none`) on malformed text, otherwise
yields the parsed value. -/
def jsonParse : Raw → Option JSValue
  | .bad _ => none
  | .good v => some v

/-! ## Association-list maps with JS `Map` semantics -/

section AssocMap

variable {κ : Type} [DecidableEq κ] {β : Type}

/-- `Map.get` / object indexing: first binding of the key. -/
def mget (k : κ) : List (κ × β) → Option β
  | [] => none
  | e :: rest => if e.1 = k then some e.2 else mget k rest

/-- `Map.set` / object assignment: replace the value at an existing key in
place, otherwise append the new binding. -/
def mset (k : κ) (v : β) : List (κ × β) → List (κ × β)
  | [] => [(k, v)]
  | e :: rest => if e.1 = k then (k, v) :: rest else e :: mset k v rest

/-- `Map.delete` / the `delete` operator: remove the binding of the key. -/
def mdel (k : κ) : List (κ × β) → List (κ × β)
  | [] => []
  | e :: rest => if e.1 = k then mdel k rest else e :: mdel k rest

/-- `Map.has`. -/
def mhas (k : κ) (l : List (κ × β)) : Bool := (mget k l).isSome

/-- The key list of a map. -/
def keys (l : List (κ × β)) : List κ := l.map Prod.fst

@[simp] theorem mget_nil (k : κ) : mget k ([] : List (κ × β)) = none := rfl

theorem mget_mset_self (k : κ) (v : β) (l : List (κ × β)) :
    mget k (mset k v l) = some v := by
  induction l with
  | nil => simp [mget, mset]
  | cons e rest ih =>
    by_cases h : e.1 = k <;> simp [mget, mset, h, ih]

theorem mget_mset_ne {k' k : κ} (v : β) (l : List (κ × β)) (h : k' ≠ k) :
    mget k' (mset k v l) = mget k' l := by
  have hk : ¬(k = k') := fun hh => h hh.symm
  induction l with
  | nil => simp [mget, mset, hk]
  | cons e rest ih =>
    obtain ⟨a, b⟩ := e
    by_cases ha : a = k
    · subst ha
      simp [mget, mset, hk]
    · by_cases ha' : a = k'
      · simp [mget, mset, ha, ha', h]
      · simp [mget, mset, ha, ha', ih]

theorem mget_mdel (k' k : κ) (l : List (κ × β)) :
    mget k' (mdel k l) = if k' = k then none else mget k' l := by
  induction l with
  | nil => simp [mget, mdel]
  | cons e rest ih =>
    obtain ⟨a, b⟩ := e
    by_cases ha : a = k
    · subst ha
      by_cases hk : k' = a
      · subst hk
        simp [mdel, ih]
      · have hk2 : ¬(a = k') := fun hh => hk hh.symm
        simp [mdel, mget, ih, hk, hk2]
    · by_cases ha' : a = k'
      · have h2 : ¬(k' = k) := fun hh => ha (ha'.trans hh)
        simp [mdel, mget, ha, ha', h2]
      · simp [mdel, mget, ha, ha', ih]

theorem mget_mdel_self (k : κ) (l : List (κ × β)) :
    mget k (mdel k l) = none := by simp [mget_mdel]

theorem mget_mdel_ne {k' k : κ} (l : List (κ × β)) (h : k' ≠ k) :
    mget k' (mdel k l) = mget k' l := by simp [mget_mdel, h]

theorem mhas_eq_false_iff (k : κ) (l : List (κ × β)) :
    mhas k l = false ↔ mget k l = none := by
  cases hg : mget k l <;> simp [mhas, hg]

theorem mhas_eq_true_iff (k : κ) (l : List (κ × β)) :
    mhas k l = true ↔ ∃ v, mget k l = some v := by
  cases hg : mget k l <;> simp [mhas, hg]

theorem mget_some_mem {k : κ} {v : β} {l : List (κ × β)} (h : mget k l = some v) :
    (k, v) ∈ l := by
  induction l with
  | nil => simp [mget] at h
  | cons e rest ih =>
    obtain ⟨a, b⟩ := e
    by_cases ha : a = k
    · subst ha
      simp [mget] at h
      subst h
      exact List.mem_cons_self _ _
    · simp [mget, ha] at h
      exact List.mem_cons_of_mem _ (ih h)

theorem mhas_of_mem {k : κ} {b : β} {l : List (κ × β)} (h : (k, b) ∈ l) :
    mhas k l = true := by
  induction l with
  | nil => simp at h
  | cons e rest ih =>
    by_cases ha : e.1 = k
    · simp [mhas, mget, ha]
    · rcases List.mem_cons.1 h with h1 | h1
      · rw [← h1] at ha
        simp at ha
      · simpa [mhas, mget, ha] using ih h1

theorem mhas_iff_mem_keys (k : κ) (l : List (κ × β)) :
    mhas k l = true ↔ k ∈ keys l := by
  constructor
  · intro h
    rcases (mhas_eq_true_iff k l).1 h with ⟨v, hv⟩
    exact List.mem_map.2 ⟨(k, v), mget_some_mem hv, rfl⟩
  · intro h
    rcases List.mem_map.1 h with ⟨⟨a, b⟩, hab, rfl⟩
    exact mhas_of_mem hab

theorem mhas_mset_iff {x k : κ} {v : β} {l : List (κ × β)} :
    mhas x (mset k v l) = true ↔ x = k ∨ mhas x l = true := by
  by_cases hx : x = k
  · subst hx
    simp [mhas, mget_mset_self]
  · simp [mhas, mget_mset_ne v l hx, hx]

theorem mhas_mdel_iff {x k : κ} {l : List (κ × β)} :
    mhas x (mdel k l) = true ↔ x ≠ k ∧ mhas x l = true := by
  by_cases hx : x = k
  · subst hx
    simp [mhas, mget_mdel_self]
  · simp [mhas, mget_mdel_ne l hx, hx]

theorem keys_mset_mhas {k : κ} {v : β} {l : List (κ × β)} (h : mhas k l = true) :
    keys (mset k v l) = keys l := by
  induction l with
  | nil => simp [mhas, mget] at h
  | cons e rest ih =>
    obtain ⟨a, b⟩ := e
    by_cases ha : a = k
    · subst ha
      simp [mset, keys]
    · have h' : mhas k rest = true := by simpa [mhas, mget, ha] using h
      have ih' := ih h'
      simp only [keys] at ih'
      simp [mset, keys, ha, ih']

theorem keys_mset_not_mhas {k : κ} {v : β} {l : List (κ × β)} (h : mhas k l = false) :
    keys (mset k v l) = keys l ++ [k] := by
  induction l with
  | nil => simp [mset, keys]
  | cons e rest ih =>
    obtain ⟨a, b⟩ := e
    by_cases ha : a = k
    · exfalso
      rw [mhas_eq_false_iff] at h
      simp [mget, ha] at h
    · have h' : mhas k rest = false := by
        rw [mhas_eq_false_iff] at h ⊢
        simpa [mget, ha] using h
      have ih' := ih h'
      simp only [keys] at ih'
      simp [mset, keys, ha, ih']

theorem nodup_keys_mset {k : κ} {v : β} {l : List (κ × β)}
    (h : (keys l).Nodup) : (keys (mset k v l)).Nodup := by
  cases hkb : mhas k l with
  | true =>
    rw [keys_mset_mhas hkb]
    exact h
  | false =>
    rw [keys_mset_not_mhas hkb]
    rw [List.nodup_append]
    refine ⟨h, List.nodup_singleton _, ?_⟩
    intro x hx hx2
    simp at hx2
    subst hx2
    rw [← mhas_iff_mem_keys, hkb] at hx
    cases hx

theorem keys_mdel (k : κ) (l : List (κ × β)) :
    keys (mdel k l) = (keys l).filter (fun x => x ≠ k) := by
  induction l with
  | nil => simp [keys, mdel]
  | cons e rest ih =>
    obtain ⟨a, b⟩ := e
    have ih' := ih
    simp only [keys, ne_eq, decide_not] at ih'
    by_cases ha : a = k
    · subst ha
      simp [mdel, keys, ih', List.filter_cons]
    · simp [mdel, keys, ha, ih', List.filter_cons]

theorem nodup_keys_mdel {k : κ} {l : List (κ × β)}
    (h : (keys l).Nodup) : (keys (mdel k l)).Nodup := by
  rw [keys_mdel]
  exact h.filter _

end AssocMap

/-! ## Data model

Shallow embedding of the `GameServer` class state (`this.players`,
`this.connections`, `this.gameState`, `this.messageQueue`, `this.nextPlayerId`)
and of the values it stores. -/

/-- The per-player record created in `addPlayer` (`src/server.js` lines
565-578).  `ws` is the opaque connection handle; `connectionId` stands for
the `crypto.randomUUID()` value, supplied by the environment. -/
structure Player where
  id : String
  ws : Nat
  position : JSValue
  rotation : JSValue
  animation : JSValue
  connected : Bool
  lastUpdate : Nat
  speed : ℚ
  color : List Nat
  connectionId : Nat
  messagesSent : Nat
  messagesReceived : Nat

/-- One entry of `this.gameState.players` (the world snapshot), as written
by `addPlayer` and `updatePlayerPosition`. -/
structure SnapEntry where
  id : String
  position : JSValue
  rotation : JSValue
  animation : JSValue
  color : List Nat

/-- An outbound message, with the fields the proofs below inspect.
`game_state` carries the serialized `this.gameState` (player snapshot map,
`maxPlayers`, `gameTime`) plus the tick timestamp.  The deferred
`player_joined` / `player_left` broadcasts fire outside the operations
modelled here and are recorded as scheduling events instead. -/
inductive OutMsg where
  | player_connected (playerId : String) (totalPlayers : Nat)
      (snap : List (String × SnapEntry)) (maxPlayers : Nat) (gameTime : ℚ)
      (serverTime : Nat) : OutMsg
  | game_state (snap : List (String × SnapEntry)) (maxPlayers : Nat)
      (gameTime : ℚ) (timestamp : Nat) : OutMsg
  | pong (timestamp : JSValue) (serverTime : Nat) : OutMsg
  | system_info_received : OutMsg
  | heartbeat_response (timestamp : Nat) : OutMsg

/-- One entry of `this.messageQueue`, pushed by `queueMessage`. -/
structure QItem where
  ws : Nat
  playerId : String
  message : Raw

/-- Observable side effects of the server operations:
a successful `ws.send`, a `ws.close(code, reason)`, the two deferred
`setTimeout` announcements, and the invocation of `handleMessage` on a
dequeued item by `processMessageQueue`. -/
inductive Event where
  | sent (ws : Nat) (msg : OutMsg) : Event
  | closed (ws : Nat) (code : Nat) (reason : String) : Event
  | scheduledJoin (playerId : String) : Event
  | scheduledLeft (playerId : String) : Event
  | dispatched (item : QItem) : Event

/-- The mutable fields of the `GameServer` instance. -/
structure ServerState where
  players : List (String × Player)
  connections : List (Nat × String)
  gsPlayers : List (String × SnapEntry)
  maxPlayers : Nat
  gameTime : ℚ
  messageQueue : List QItem
  nextPlayerId : Nat

/-- The state built by the constructor. -/
def initialState : ServerState :=
  { players := []
    connections := []
    gsPlayers := []
    maxPlayers := 8
    gameTime := 0
    messageQueue := []
    nextPlayerId := 1 }

/-- Ambient facts at the moment an operation runs: `Date.now()`, which
connection handles report `readyState === OPEN`, and which ones throw
from `ws.send`. -/
structure Env where
  now : Nat
  isOpen : Nat → Bool
  sendFails : Nat → Bool

/-- `this.tickRate` (constructor, 20 Hz). -/
def tickRate : ℚ := 20

/-- `this.connectionTimeout` (constructor, 45000 ms). -/
def connectionTimeout : Int := 45000

/-- The fixed 8-entry palette of `generatePlayerColor`. -/
def colorPalette : List (List Nat) :=
  [[255, 0, 0], [0, 255, 0], [0, 0, 255], [255, 255, 0],
   [255, 0, 255], [0, 255, 255], [255, 128, 0], [128, 0, 255]]

/-- `generatePlayerColor`: `parseInt(playerId) % colors.length` indexes the
palette.  Player ids are decimal strings produced by `generateUniquePlayerId`,
so `parseInt` is `String.toNat?` here (the `NaN` edge never arises). -/
def generatePlayerColor (playerId : String) : List Nat :=
  colorPalette.getD (playerId.toNat?.getD 0 % colorPalette.length) []

/-- The default transform written at registration: `{ x: 0, y: 0, z: 0 }`. -/
def defaultVec : JSValue :=
  .vObj [("x", .vNum 0), ("y", .vNum 0), ("z", .vNum 0)]

/-- The player object literal of `addPlayer` (lines 565-578). -/
def newPlayer (env : Env) (connId : Nat) (ws : Nat) (playerId : String) : Player :=
  { id := playerId
    ws := ws
    position := defaultVec
    rotation := defaultVec
    animation := .vStr "root|Idle"
    connected := true
    lastUpdate := env.now
    speed := 3 / 10
    color := generatePlayerColor playerId
    connectionId := connId
    messagesSent := 0
    messagesReceived := 0 }

/-- The snapshot entry written for a player
(`{ id, position, rotation, animation, color }`). -/
def snapEntryOf (playerId : String) (p : Player) : SnapEntry :=
  { id := playerId
    position := p.position
    rotation := p.rotation
    animation := p.animation
    color := p.color }

/-! ## Operations (translated from `src/server.js`, hardest version) -/

/-- The counter block of `sendSafeMessage` (lines 667-674): after a
successful send, bump `messagesSent` of the player the Connection Registry
maps this handle to (if any). -/
def bumpSent (ws : Nat) (s : ServerState) : ServerState :=
  match mget ws s.connections with
  | some pid =>
    match mget pid s.players with
    | some p =>
      { s with players :=
          (mset pid { p with messagesSent := p.messagesSent + 1 } s.players) }
    | none => s
  | none => s

/-- `sendSafeMessage(ws, data)` (lines 661-683): if the connection is open,
stringify and send; on success bump the sender-side counter and return
`true`; if `send` throws, the catch returns `false`; if the connection is
not open, return `false` without sending. -/
def sendSafeMessage (env : Env) (ws : Nat) (m : OutMsg) (s : ServerState) :
    Bool × ServerState × List Event :=
  if env.isOpen ws then
    if env.sendFails ws then (false, s, [])
    else (true, bumpSent ws s, [Event.sent ws m])
  else (false, s, [])

/-- `removePlayer(playerId)` (lines 612-636): if the id is registered,
remove it from the Connection Registry (keyed by the player's handle), the
Player Store, and the WorldSnapshot; close the connection if still open;
schedule the deferred `player_left` broadcast.  A no-op for unknown ids. -/
def removePlayer (env : Env) (playerId : String) (s : ServerState) :
    ServerState × List Event :=
  match mget playerId s.players with
  | none => (s, [])
  | some player =>
    ({ s with
        connections := mdel player.ws s.connections
        players := mdel playerId s.players
        gsPlayers := mdel playerId s.gsPlayers },
     (if env.isOpen player.ws then [Event.closed player.ws 1000 "Disconnected"] else [])
       ++ [Event.scheduledLeft playerId])

/-- The first block of `addPlayer` (lines 556-563): when the id already has
a live entry, close its connection with the `Reconnecting` reason (if still
open) and deregister it. -/
def evictExisting (env : Env) (playerId : String) (s : ServerState) :
    ServerState × List Event :=
  match mget playerId s.players with
  | some oldPlayer =>
    let r := removePlayer env playerId s
    (r.1,
     (if env.isOpen oldPlayer.ws
        then [Event.closed oldPlayer.ws 1000 "Reconnecting"] else [])
       ++ r.2)
  | none => (s, [])

/-- The insertion block of `addPlayer` (lines 565-589): create the default
`player` record and write it into the Player Store, the Connection Registry
and the WorldSnapshot. -/
def insertNewPlayer (env : Env) (connId : Nat) (ws : Nat) (playerId : String)
    (s : ServerState) : ServerState :=
  let player := newPlayer env connId ws playerId
  { s with
      players := mset playerId player s.players
      connections := mset ws playerId s.connections
      gsPlayers := mset playerId (snapEntryOf playerId player) s.gsPlayers }

/-- The `player_connected` greeting of `addPlayer` (lines 594-600), built
from the post-insertion state. -/
def connectedMsg (env : Env) (playerId : String) (s2 : ServerState) : OutMsg :=
  OutMsg.player_connected playerId s2.players.length s2.gsPlayers
    s2.maxPlayers s2.gameTime env.now

/-- `addPlayer(ws, playerId)` (lines 552-610): evict a prior live entry,
insert the default player record into all three maps, send
`player_connected` to the new connection, and schedule the deferred
`player_joined` broadcast. -/
def addPlayer (env : Env) (connId : Nat) (ws : Nat) (playerId : String)
    (s : ServerState) : ServerState × List Event :=
  let r1 := evictExisting env playerId s
  let s2 := insertNewPlayer env connId ws playerId r1.1
  let r2 := sendSafeMessage env ws (connectedMsg env playerId s2) s2
  (r2.2.1, r1.2 ++ r2.2.2 ++ [Event.scheduledJoin playerId])

/-- The field writes of `updatePlayerPosition` (lines 645-648): take the
payload's transform, with a falsy `data.animation` defaulting to
`"root|Idle"` (the `||` fallback), and refresh `lastUpdate`. -/
def updatedPlayer (env : Env) (data : JSValue) (player : Player) : Player :=
  { player with
      position := jsGet data "position"
      rotation := jsGet data "rotation"
      animation := if truthy (jsGet data "animation")
                     then jsGet data "animation" else .vStr "root|Idle"
      lastUpdate := env.now }

/-- The guarded body of `updatePlayerPosition` (lines 642-657): apply the
transform only when both `data.position` and `data.rotation` are truthy
values of `typeof 'object'`, and rewrite the snapshot entry. -/
def applyTransform (env : Env) (playerId : String) (data : JSValue)
    (player : Player) (s : ServerState) : ServerState :=
  if truthy (jsGet data "position") && isObjType (jsGet data "position") &&
     truthy (jsGet data "rotation") && isObjType (jsGet data "rotation") then
    { s with
        players := (mset playerId (updatedPlayer env data player) s.players)
        gsPlayers := (mset playerId
          (snapEntryOf playerId (updatedPlayer env data player)) s.gsPlayers) }
  else s

/-- `updatePlayerPosition(playerId, data)` (lines 638-659): a no-op for
unknown ids, otherwise the validated transform update. -/
def updatePlayerPosition (env : Env) (playerId : String) (data : JSValue)
    (s : ServerState) : ServerState :=
  match mget playerId s.players with
  | none => s
  | some player => applyTransform env playerId data player s

/-- The liveness refresh of `handleMessage` (lines 780-782): set
`lastUpdate = Date.now()` and bump `messagesReceived`, before any
type-specific handling. -/
def touchPlayer (env : Env) (playerId : String) (player : Player)
    (s : ServerState) : ServerState :=
  { s with players :=
      (mset playerId
        { player with
            lastUpdate := env.now
            messagesReceived := player.messagesReceived + 1 } s.players) }

/-- The `switch (data.type)` of `handleMessage` (lines 784-823), with JS
strict string comparison: a non-string `data.type` and an unknown tag both
fall through to the diagnostic-only default. -/
def dispatchSwitch (env : Env) (ws : Nat) (playerId : String) (data : JSValue)
    (s1 : ServerState) : ServerState × List Event :=
  match jsGet data "type" with
  | .vStr t =>
    if t = "position_update" then
      (updatePlayerPosition env playerId data s1, [])
    else if t = "ping" then
      let r := sendSafeMessage env ws
        (OutMsg.pong (jsGet data "timestamp") env.now) s1
      (r.2.1, r.2.2)
    else if t = "system_info" then
      let r := sendSafeMessage env ws OutMsg.system_info_received s1
      (r.2.1, r.2.2)
    else if t = "disconnect" then
      removePlayer env playerId s1
    else if t = "heartbeat" then
      let r := sendSafeMessage env ws
        (OutMsg.heartbeat_response env.now) s1
      (r.2.1, r.2.2)
    else (s1, [])
  | _ => (s1, [])

/-- Dispatch on an already-parsed payload.  Accessing `data.type` on a
parsed `null` (or `undefined`) throws a `TypeError` that the surrounding
`try` catches — after the liveness refresh has already been applied. -/
def dispatchTyped (env : Env) (ws : Nat) (playerId : String) (data : JSValue)
    (s1 : ServerState) : ServerState × List Event :=
  match data with
  | .vNull => (s1, [])
  | .vUndefined => (s1, [])
  | _ => dispatchSwitch env ws playerId data s1

/-- The registered-id path of `handleMessage` (lines 775-823): drop
messages from unregistered ids, otherwise refresh liveness and dispatch. -/
def dispatchParsed (env : Env) (ws : Nat) (playerId : String) (data : JSValue)
    (s : ServerState) : ServerState × List Event :=
  match mget playerId s.players with
  | none => (s, [])
  | some player =>
    dispatchTyped env ws playerId data (touchPlayer env playerId player s)

/-- `handleMessage(ws, playerId, message)` (lines 771-827): parse the raw
frame (a throwing `JSON.parse` is caught and drops the message), then
dispatch. -/
def handleMessage (env : Env) (ws : Nat) (playerId : String) (raw : Raw)
    (s : ServerState) : ServerState × List Event :=
  match jsonParse raw with
  | none => (s, [])
  | some data => dispatchParsed env ws playerId data s

/-- `queueMessage(ws, playerId, message)` (lines 829-831). -/
def queueMessage (ws : Nat) (playerId : String) (m : Raw) (s : ServerState) :
    ServerState :=
  { s with messageQueue := s.messageQueue ++ [⟨ws, playerId, m⟩] }

/-- The `forEach` of `processMessageQueue`: dispatch each dequeued item
through `handleMessage`, in order. -/
def dispatchBatch (env : Env) : List QItem → ServerState → ServerState × List Event
  | [], s => (s, [])
  | q :: rest, s =>
    let r1 := handleMessage env q.ws q.playerId q.message s
    let r2 := dispatchBatch env rest r1.1
    (r2.1, (Event.dispatched q :: r1.2) ++ r2.2)

/-- `processMessageQueue()` (lines 543-550): `splice(0, 50)` removes the
first at-most-50 queued messages, then each is dispatched in order. -/
def processMessageQueue (env : Env) (s : ServerState) : ServerState × List Event :=
  let batch := s.messageQueue.take 50
  dispatchBatch env batch { s with messageQueue := s.messageQueue.drop 50 }

/-- The batched `forEach(removePlayer)` used by the sweep and broadcast
routines. -/
def removeAll (env : Env) : List String → ServerState → ServerState × List Event
  | [], s => (s, [])
  | pid :: rest, s =>
    let r1 := removePlayer env pid s
    let r2 := removeAll env rest r1.1
    (r2.1, r1.2 ++ r2.2)

/-- `cleanupInactivePlayers()` (lines 527-541): collect the ids whose
`now - lastUpdate` exceeds the 45 s timeout, then deregister them. -/
def cleanupInactivePlayers (env : Env) (s : ServerState) : ServerState × List Event :=
  removeAll env
    ((s.players.filter
        (fun e => decide ((env.now : Int) - (e.2.lastUpdate : Int) > connectionTimeout))).map
      Prod.fst)
    s

/-- The send loop shared by the broadcast routines: send `m` to every listed
`(playerId, ws)` pair, collecting the ids whose send returned `false`. -/
def broadcastList (env : Env) (m : OutMsg) :
    List (String × Nat) → ServerState → List String × ServerState × List Event
  | [], s => ([], s, [])
  | e :: rest, s =>
    let r1 := sendSafeMessage env e.2 m s
    let r2 := broadcastList env m rest r1.2.1
    ((if r1.1 then r2.1 else e.1 :: r2.1), r2.2.1, r1.2.2 ++ r2.2.2)

/-- `broadcastGameState()` (lines 685-706): skip when no players; build the
`game_state` message from the current `this.gameState`, send it to every
registered player's connection, then deregister every player whose send
failed.  (The message object is built once before the loop; nothing in the
loop mutates the snapshot, so per-send stringification sees the same
snapshot for every recipient.) -/
def broadcastGameState (env : Env) (s : ServerState) : ServerState × List Event :=
  if s.players.length = 0 then (s, [])
  else
    let m := OutMsg.game_state s.gsPlayers s.maxPlayers s.gameTime env.now
    let r1 := broadcastList env m (s.players.map (fun e => (e.1, e.2.ws))) s
    let r2 := removeAll env r1.1 r1.2.1
    (r2.1, r1.2.2 ++ r2.2)

/-- One tick of the `setInterval` callback of `startGameLoop`
(lines 518-525): advance `gameTime` by `1000 / tickRate`, sweep inactive
players, drain a batch of the inbound queue, broadcast the snapshot. -/
def tick (env : Env) (s : ServerState) : ServerState × List Event :=
  let s0 := { s with gameTime := s.gameTime + 1000 / tickRate }
  let r1 := cleanupInactivePlayers env s0
  let r2 := processMessageQueue env r1.1
  let r3 := broadcastGameState env r2.1
  (r3.1, r1.2 ++ r2.2 ++ r3.2)

/-- `N` consecutive ticks; `envs n` is the ambient environment of the
`n`-th tick. -/
def tickN (envs : Nat → Env) : Nat → ServerState → ServerState
  | 0, s => s
  | n + 1, s => tickN envs n (tick (envs n) s).1

/-! ## Basic facts about the operations -/

theorem sendSafeMessage_state (env : Env) (ws : Nat) (m : OutMsg) (s : ServerState) :
    (sendSafeMessage env ws m s).2.1 =
      if env.isOpen ws && !env.sendFails ws then bumpSent ws s else s := by
  unfold sendSafeMessage
  by_cases ho : env.isOpen ws <;> by_cases hf : env.sendFails ws <;> simp [ho, hf]

theorem sendSafeMessage_ok (env : Env) (ws : Nat) (m : OutMsg) (s : ServerState) :
    (sendSafeMessage env ws m s).1 = (env.isOpen ws && !env.sendFails ws) := by
  unfold sendSafeMessage
  by_cases ho : env.isOpen ws <;> by_cases hf : env.sendFails ws <;> simp [ho, hf]

theorem sendSafeMessage_events (env : Env) (ws : Nat) (m : OutMsg) (s : ServerState) :
    (sendSafeMessage env ws m s).2.2 =
      if env.isOpen ws && !env.sendFails ws then [Event.sent ws m] else [] := by
  unfold sendSafeMessage
  by_cases ho : env.isOpen ws <;> by_cases hf : env.sendFails ws <;> simp [ho, hf]

theorem bumpSent_connections (ws : Nat) (s : ServerState) :
    (bumpSent ws s).connections = s.connections := by
  unfold bumpSent
  split
  · split <;> rfl
  · rfl

theorem bumpSent_gsPlayers (ws : Nat) (s : ServerState) :
    (bumpSent ws s).gsPlayers = s.gsPlayers := by
  unfold bumpSent
  split
  · split <;> rfl
  · rfl

theorem bumpSent_messageQueue (ws : Nat) (s : ServerState) :
    (bumpSent ws s).messageQueue = s.messageQueue := by
  unfold bumpSent
  split
  · split <;> rfl
  · rfl

theorem bumpSent_gameTime (ws : Nat) (s : ServerState) :
    (bumpSent ws s).gameTime = s.gameTime := by
  unfold bumpSent
  split
  · split <;> rfl
  · rfl

/-- The only thing `bumpSent` can do to the Player Store is bump the
`messagesSent` counter of one registered player. -/
theorem bumpSent_players_mget (ws : Nat) (s : ServerState) (pid : String) :
    mget pid (bumpSent ws s).players = mget pid s.players ∨
    ∃ p, mget pid s.players = some p ∧
      mget pid (bumpSent ws s).players =
        some { p with messagesSent := p.messagesSent + 1 } := by
  unfold bumpSent
  split
  · split
    · rename_i a1 pid2 hc a2 p2 hp2
      by_cases hx : pid = pid2
      · subst hx
        exact Or.inr ⟨p2, hp2, mget_mset_self _ _ _⟩
      · exact Or.inl (mget_mset_ne _ _ hx)
    · exact Or.inl rfl
  · exact Or.inl rfl

theorem bumpSent_players_nodup (ws : Nat) (s : ServerState)
    (h : (keys s.players).Nodup) : (keys (bumpSent ws s).players).Nodup := by
  unfold bumpSent
  split
  · split
    · exact nodup_keys_mset h
    · exact h
  · exact h

theorem sendSafeMessage_connections (env : Env) (ws : Nat) (m : OutMsg) (s : ServerState) :
    (sendSafeMessage env ws m s).2.1.connections = s.connections := by
  rw [sendSafeMessage_state]
  split
  · exact bumpSent_connections ws s
  · rfl

theorem sendSafeMessage_gsPlayers (env : Env) (ws : Nat) (m : OutMsg) (s : ServerState) :
    (sendSafeMessage env ws m s).2.1.gsPlayers = s.gsPlayers := by
  rw [sendSafeMessage_state]
  split
  · exact bumpSent_gsPlayers ws s
  · rfl

theorem sendSafeMessage_messageQueue (env : Env) (ws : Nat) (m : OutMsg) (s : ServerState) :
    (sendSafeMessage env ws m s).2.1.messageQueue = s.messageQueue := by
  rw [sendSafeMessage_state]
  split
  · exact bumpSent_messageQueue ws s
  · rfl

theorem sendSafeMessage_gameTime (env : Env) (ws : Nat) (m : OutMsg) (s : ServerState) :
    (sendSafeMessage env ws m s).2.1.gameTime = s.gameTime := by
  rw [sendSafeMessage_state]
  split
  · exact bumpSent_gameTime ws s
  · rfl

theorem sendSafeMessage_players_mget (env : Env) (ws : Nat) (m : OutMsg)
    (s : ServerState) (pid : String) :
    mget pid (sendSafeMessage env ws m s).2.1.players = mget pid s.players ∨
    ∃ p, mget pid s.players = some p ∧
      mget pid (sendSafeMessage env ws m s).2.1.players =
        some { p with messagesSent := p.messagesSent + 1 } := by
  rw [sendSafeMessage_state]
  split
  · exact bumpSent_players_mget ws s pid
  · exact Or.inl rfl

theorem sendSafeMessage_players_nodup (env : Env) (ws : Nat) (m : OutMsg)
    (s : ServerState) (h : (keys s.players).Nodup) :
    (keys (sendSafeMessage env ws m s).2.1.players).Nodup := by
  rw [sendSafeMessage_state]
  split
  · exact bumpSent_players_nodup ws s h
  · exact h

theorem removePlayer_some (env : Env) (pid : String) {s : ServerState} {p : Player}
    (hp : mget pid s.players = some p) :
    removePlayer env pid s =
      ({ s with
          connections := mdel p.ws s.connections
          players := mdel pid s.players
          gsPlayers := mdel pid s.gsPlayers },
       (if env.isOpen p.ws then [Event.closed p.ws 1000 "Disconnected"] else [])
         ++ [Event.scheduledLeft pid]) := by
  unfold removePlayer
  rw [hp]

theorem removePlayer_none (env : Env) (pid : String) {s : ServerState}
    (hp : mget pid s.players = none) : removePlayer env pid s = (s, []) := by
  unfold removePlayer
  rw [hp]

theorem evictExisting_some (env : Env) (pid : String) {s : ServerState} {p : Player}
    (hp : mget pid s.players = some p) :
    evictExisting env pid s =
      ((removePlayer env pid s).1,
       (if env.isOpen p.ws then [Event.closed p.ws 1000 "Reconnecting"] else [])
         ++ (removePlayer env pid s).2) := by
  unfold evictExisting
  rw [hp]

theorem evictExisting_none (env : Env) (pid : String) {s : ServerState}
    (hp : mget pid s.players = none) : evictExisting env pid s = (s, []) := by
  unfold evictExisting
  rw [hp]

theorem addPlayer_fst (env : Env) (connId ws : Nat) (pid : String) (s : ServerState) :
    (addPlayer env connId ws pid s).1 =
      (sendSafeMessage env ws
        (connectedMsg env pid (insertNewPlayer env connId ws pid (evictExisting env pid s).1))
        (insertNewPlayer env connId ws pid (evictExisting env pid s).1)).2.1 := rfl

theorem addPlayer_snd (env : Env) (connId ws : Nat) (pid : String) (s : ServerState) :
    (addPlayer env connId ws pid s).2 =
      (evictExisting env pid s).2 ++
        (sendSafeMessage env ws
          (connectedMsg env pid (insertNewPlayer env connId ws pid (evictExisting env pid s).1))
          (insertNewPlayer env connId ws pid (evictExisting env pid s).1)).2.2 ++
        [Event.scheduledJoin pid] := rfl

theorem insertNewPlayer_players (env : Env) (connId ws : Nat) (pid : String)
    (s : ServerState) :
    (insertNewPlayer env connId ws pid s).players =
      mset pid (newPlayer env connId ws pid) s.players := rfl

theorem insertNewPlayer_connections (env : Env) (connId ws : Nat) (pid : String)
    (s : ServerState) :
    (insertNewPlayer env connId ws pid s).connections =
      mset ws pid s.connections := rfl

theorem insertNewPlayer_gsPlayers (env : Env) (connId ws : Nat) (pid : String)
    (s : ServerState) :
    (insertNewPlayer env connId ws pid s).gsPlayers =
      mset pid (snapEntryOf pid (newPlayer env connId ws pid)) s.gsPlayers := rfl

/-- After `addPlayer`, the id is mapped to the freshly created default
record (whose `messagesSent` counter may already have been bumped by the
`player_connected` greeting). -/
theorem addPlayer_new_entry (env : Env) (connId ws : Nat) (pid : String)
    (s : ServerState) :
    ∃ n, mget pid (addPlayer env connId ws pid s).1.players =
      some { newPlayer env connId ws pid with messagesSent := n } := by
  rw [addPlayer_fst]
  rcases sendSafeMessage_players_mget env ws
      (connectedMsg env pid (insertNewPlayer env connId ws pid (evictExisting env pid s).1))
      (insertNewPlayer env connId ws pid (evictExisting env pid s).1) pid with
    h | ⟨p, hp, h⟩
  · refine ⟨0, ?_⟩
    rw [h, insertNewPlayer_players, mget_mset_self]
    rfl
  · rw [insertNewPlayer_players, mget_mset_self] at hp
    have hpe : newPlayer env connId ws pid = p := Option.some.inj hp
    refine ⟨p.messagesSent + 1, ?_⟩
    rw [h, ← hpe]

theorem handleMessage_eq_none (env : Env) (ws : Nat) (pid : String) (raw : Raw)
    (s : ServerState) (h : jsonParse raw = none) :
    handleMessage env ws pid raw s = (s, []) := by
  unfold handleMessage
  rw [h]

theorem handleMessage_eq_some (env : Env) (ws : Nat) (pid : String) (raw : Raw)
    (s : ServerState) (data : JSValue) (h : jsonParse raw = some data) :
    handleMessage env ws pid raw s = dispatchParsed env ws pid data s := by
  unfold handleMessage
  rw [h]

theorem dispatchParsed_none (env : Env) (ws : Nat) (pid : String) (data : JSValue)
    {s : ServerState} (h : mget pid s.players = none) :
    dispatchParsed env ws pid data s = (s, []) := by
  unfold dispatchParsed
  rw [h]

theorem dispatchParsed_some (env : Env) (ws : Nat) (pid : String) (data : JSValue)
    {s : ServerState} {player : Player} (h : mget pid s.players = some player) :
    dispatchParsed env ws pid data s =
      dispatchTyped env ws pid data (touchPlayer env pid player s) := by
  unfold dispatchParsed
  rw [h]

theorem dispatchTyped_eq (env : Env) (ws : Nat) (pid : String) (data : JSValue)
    (s1 : ServerState) (h1 : data ≠ .vNull) (h2 : data ≠ .vUndefined) :
    dispatchTyped env ws pid data s1 = dispatchSwitch env ws pid data s1 := by
  cases data with
  | vNull => exact absurd rfl h1
  | vUndefined => exact absurd rfl h2
  | vBool b => rfl
  | vNum n => rfl
  | vStr t => rfl
  | vObj fields => rfl

theorem touchPlayer_mget_self (env : Env) (pid : String) (player : Player)
    (s : ServerState) :
    mget pid (touchPlayer env pid player s).players =
      some { player with
               lastUpdate := env.now
               messagesReceived := player.messagesReceived + 1 } := by
  unfold touchPlayer
  exact mget_mset_self _ _ _

/-- A message from an unregistered id is dropped with no state change and
no reply. -/
theorem handleMessage_unregistered (env : Env) (ws : Nat) (pid : String)
    (raw : Raw) {s : ServerState} (h : mget pid s.players = none) :
    handleMessage env ws pid raw s = (s, []) := by
  cases hr : jsonParse raw with
  | none => exact handleMessage_eq_none env ws pid raw s hr
  | some data =>
    rw [handleMessage_eq_some env ws pid raw s data hr,
      dispatchParsed_none env ws pid data h]

theorem updatePlayerPosition_mget_self (env : Env) (pid : String) (data : JSValue)
    {s1 : ServerState} {q : Player} (hq : mget pid s1.players = some q) :
    mget pid (updatePlayerPosition env pid data s1).players = some q ∨
    mget pid (updatePlayerPosition env pid data s1).players =
      some (updatedPlayer env data q) := by
  unfold updatePlayerPosition
  rw [hq]
  show mget pid (applyTransform env pid data q s1).players = some q ∨ _
  unfold applyTransform
  split
  · exact Or.inr (mget_mset_self _ _ _)
  · exact Or.inl hq

/-- The `switch` never removes the addressed player (except through
`disconnect`) and never resets the liveness refresh: if `pid` is mapped to
`q`, then afterwards it is mapped to a record with `lastUpdate = now`
(assuming `q` already had it) and `q`'s `messagesReceived`. -/
theorem dispatchSwitch_keeps (env : Env) (ws : Nat) (pid : String) (data : JSValue)
    (s1 : ServerState) (q : Player) (hq : mget pid s1.players = some q)
    (hql : q.lastUpdate = env.now)
    (hnd : jsGet data "type" ≠ JSValue.vStr "disconnect") :
    ∃ p', mget pid (dispatchSwitch env ws pid data s1).1.players = some p' ∧
      p'.lastUpdate = env.now ∧ p'.messagesReceived = q.messagesReceived := by
  have hsend : ∀ m : OutMsg,
      ∃ p', mget pid (sendSafeMessage env ws m s1).2.1.players = some p' ∧
        p'.lastUpdate = env.now ∧ p'.messagesReceived = q.messagesReceived := by
    intro m
    rcases sendSafeMessage_players_mget env ws m s1 pid with hc | ⟨p2, hp2, hc⟩
    · exact ⟨q, by rw [hc]; exact hq, hql, rfl⟩
    · rw [hq] at hp2
      have : q = p2 := Option.some.inj hp2
      subst this
      exact ⟨_, hc, hql, rfl⟩
  unfold dispatchSwitch
  split
  · rename_i tv heq
    split_ifs with h1 h2 h3 h4 h5
    · rcases updatePlayerPosition_mget_self env pid data hq with hc | hc
      · exact ⟨q, hc, hql, rfl⟩
      · exact ⟨_, hc, rfl, rfl⟩
    · exact hsend _
    · exact hsend _
    · exact absurd (heq.trans (congrArg JSValue.vStr h4)) hnd
    · exact hsend _
    · exact ⟨q, hq, hql, rfl⟩
  · exact ⟨q, hq, hql, rfl⟩

/-! ## Preservation of the inbound queue and the game-time accumulator -/

theorem removePlayer_qt (env : Env) (pid : String) (s : ServerState) :
    (removePlayer env pid s).1.messageQueue = s.messageQueue ∧
    (removePlayer env pid s).1.gameTime = s.gameTime := by
  unfold removePlayer
  split
  · exact ⟨rfl, rfl⟩
  · exact ⟨rfl, rfl⟩

theorem updatePlayerPosition_qt (env : Env) (pid : String) (data : JSValue)
    (s : ServerState) :
    (updatePlayerPosition env pid data s).messageQueue = s.messageQueue ∧
    (updatePlayerPosition env pid data s).gameTime = s.gameTime := by
  unfold updatePlayerPosition
  split
  · exact ⟨rfl, rfl⟩
  · rename_i p hp
    unfold applyTransform
    split
    · exact ⟨rfl, rfl⟩
    · exact ⟨rfl, rfl⟩

theorem dispatchSwitch_qt (env : Env) (ws : Nat) (pid : String) (data : JSValue)
    (s1 : ServerState) :
    (dispatchSwitch env ws pid data s1).1.messageQueue = s1.messageQueue ∧
    (dispatchSwitch env ws pid data s1).1.gameTime = s1.gameTime := by
  unfold dispatchSwitch
  split
  · split_ifs
    · exact updatePlayerPosition_qt env pid data s1
    · exact ⟨sendSafeMessage_messageQueue env ws _ s1, sendSafeMessage_gameTime env ws _ s1⟩
    · exact ⟨sendSafeMessage_messageQueue env ws _ s1, sendSafeMessage_gameTime env ws _ s1⟩
    · exact removePlayer_qt env pid s1
    · exact ⟨sendSafeMessage_messageQueue env ws _ s1, sendSafeMessage_gameTime env ws _ s1⟩
    · exact ⟨rfl, rfl⟩
  · exact ⟨rfl, rfl⟩

theorem dispatchTyped_qt (env : Env) (ws : Nat) (pid : String) (data : JSValue)
    (s1 : ServerState) :
    (dispatchTyped env ws pid data s1).1.messageQueue = s1.messageQueue ∧
    (dispatchTyped env ws pid data s1).1.gameTime = s1.gameTime := by
  cases data with
  | vNull => exact ⟨rfl, rfl⟩
  | vUndefined => exact ⟨rfl, rfl⟩
  | vBool b => exact dispatchSwitch_qt env ws pid _ s1
  | vNum n => exact dispatchSwitch_qt env ws pid _ s1
  | vStr t => exact dispatchSwitch_qt env ws pid _ s1
  | vObj fields => exact dispatchSwitch_qt env ws pid _ s1

theorem handleMessage_qt (env : Env) (ws : Nat) (pid : String) (raw : Raw)
    (s : ServerState) :
    (handleMessage env ws pid raw s).1.messageQueue = s.messageQueue ∧
    (handleMessage env ws pid raw s).1.gameTime = s.gameTime := by
  unfold handleMessage
  split
  · exact ⟨rfl, rfl⟩
  · rename_i data hr
    unfold dispatchParsed
    split
    · exact ⟨rfl, rfl⟩
    · rename_i p hp
      exact dispatchTyped_qt env ws pid data _

theorem dispatchBatch_qt (env : Env) :
    ∀ (batch : List QItem) (s : ServerState),
      (dispatchBatch env batch s).1.messageQueue = s.messageQueue ∧
      (dispatchBatch env batch s).1.gameTime = s.gameTime := by
  intro batch
  induction batch with
  | nil => exact fun s => ⟨rfl, rfl⟩
  | cons q rest ih =>
    intro s
    have h1 : (dispatchBatch env (q :: rest) s).1 =
        (dispatchBatch env rest
          (handleMessage env q.ws q.playerId q.message s).1).1 := rfl
    rw [h1]
    exact ⟨(ih _).1.trans (handleMessage_qt env q.ws q.playerId q.message s).1,
           (ih _).2.trans (handleMessage_qt env q.ws q.playerId q.message s).2⟩

theorem removeAll_qt (env : Env) :
    ∀ (l : List String) (s : ServerState),
      (removeAll env l s).1.messageQueue = s.messageQueue ∧
      (removeAll env l s).1.gameTime = s.gameTime := by
  intro l
  induction l with
  | nil => exact fun s => ⟨rfl, rfl⟩
  | cons pid rest ih =>
    intro s
    have h1 : (removeAll env (pid :: rest) s).1 =
        (removeAll env rest (removePlayer env pid s).1).1 := rfl
    rw [h1]
    exact ⟨(ih _).1.trans (removePlayer_qt env pid s).1,
           (ih _).2.trans (removePlayer_qt env pid s).2⟩

theorem cleanupInactivePlayers_qt (env : Env) (s : ServerState) :
    (cleanupInactivePlayers env s).1.messageQueue = s.messageQueue ∧
    (cleanupInactivePlayers env s).1.gameTime = s.gameTime := by
  unfold cleanupInactivePlayers
  exact removeAll_qt env _ s

theorem broadcastList_qt (env : Env) (m : OutMsg) :
    ∀ (l : List (String × Nat)) (s : ServerState),
      (broadcastList env m l s).2.1.messageQueue = s.messageQueue ∧
      (broadcastList env m l s).2.1.gameTime = s.gameTime := by
  intro l
  induction l with
  | nil => exact fun s => ⟨rfl, rfl⟩
  | cons e rest ih =>
    intro s
    have h1 : (broadcastList env m (e :: rest) s).2.1 =
        (broadcastList env m rest (sendSafeMessage env e.2 m s).2.1).2.1 := rfl
    rw [h1]
    exact ⟨(ih _).1.trans (sendSafeMessage_messageQueue env e.2 m s),
           (ih _).2.trans (sendSafeMessage_gameTime env e.2 m s)⟩

theorem broadcastGameState_qt (env : Env) (s : ServerState) :
    (broadcastGameState env s).1.messageQueue = s.messageQueue ∧
    (broadcastGameState env s).1.gameTime = s.gameTime := by
  unfold broadcastGameState
  split
  · exact ⟨rfl, rfl⟩
  · refine ⟨?_, ?_⟩
    · exact (removeAll_qt env _ _).1.trans (broadcastList_qt env _ _ s).1
    · exact (removeAll_qt env _ _).2.trans (broadcastList_qt env _ _ s).2

theorem processMessageQueue_queue (env : Env) (s : ServerState) :
    (processMessageQueue env s).1.messageQueue = s.messageQueue.drop 50 := by
  unfold processMessageQueue
  exact (dispatchBatch_qt env _ _).1

theorem processMessageQueue_gameTime (env : Env) (s : ServerState) :
    (processMessageQueue env s).1.gameTime = s.gameTime := by
  unfold processMessageQueue
  exact (dispatchBatch_qt env _ _).2

theorem tick_fst (env : Env) (s : ServerState) :
    (tick env s).1 =
      (broadcastGameState env
        (processMessageQueue env
          (cleanupInactivePlayers env
            { s with gameTime := s.gameTime + 1000 / tickRate }).1).1).1 := rfl

theorem tick_snd (env : Env) (s : ServerState) :
    (tick env s).2 =
      (cleanupInactivePlayers env
          { s with gameTime := s.gameTime + 1000 / tickRate }).2 ++
        (processMessageQueue env
          (cleanupInactivePlayers env
            { s with gameTime := s.gameTime + 1000 / tickRate }).1).2 ++
        (broadcastGameState env
          (processMessageQueue env
            (cleanupInactivePlayers env
              { s with gameTime := s.gameTime + 1000 / tickRate }).1).1).2 := rfl

theorem tick_messageQueue (env : Env) (s : ServerState) :
    (tick env s).1.messageQueue = s.messageQueue.drop 50 := by
  rw [tick_fst, (broadcastGameState_qt env _).1, processMessageQueue_queue,
    (cleanupInactivePlayers_qt env _).1]

theorem tick_gameTime (env : Env) (s : ServerState) :
    (tick env s).1.gameTime = s.gameTime + 1000 / tickRate := by
  rw [tick_fst, (broadcastGameState_qt env _).2, processMessageQueue_gameTime,
    (cleanupInactivePlayers_qt env _).2]

/-! ## Classifying emitted events -/

/-- Recognizes the dispatch of a dequeued message by the tick loop. -/
def isDispatchEv : Event → Bool
  | .dispatched _ => true
  | _ => false

/-- Recognizes a successfully sent `game_state` broadcast message. -/
def isGameStateSendEv : Event → Bool
  | .sent _ (.game_state _ _ _ _) => true
  | _ => false

theorem filter_nil_of_false {α : Type} (p : α → Bool) :
    ∀ l : List α, (∀ e ∈ l, p e = false) → l.filter p = [] := by
  intro l h
  induction l with
  | nil => rfl
  | cons a rest ih =>
    have ha := h a (List.mem_cons_self _ _)
    rw [List.filter_cons_of_neg (by simp [ha])]
    exact ih fun e he => h e (List.mem_cons_of_mem _ he)

theorem removePlayer_events_mem (env : Env) (pid : String) (s : ServerState) :
    ∀ e ∈ (removePlayer env pid s).2,
      (∃ w c r, e = Event.closed w c r) ∨ ∃ p, e = Event.scheduledLeft p := by
  unfold removePlayer
  split
  · intro e he
    simp at he
  · rename_i p hp
    intro e he
    by_cases ho : env.isOpen p.ws
    · simp [ho] at he
      rcases he with he | he
      · exact Or.inl ⟨_, _, _, he⟩
      · exact Or.inr ⟨_, he⟩
    · simp [ho] at he
      exact Or.inr ⟨_, he⟩

theorem sendSafeMessage_events_mem (env : Env) (ws : Nat) (m : OutMsg)
    (s : ServerState) :
    ∀ e ∈ (sendSafeMessage env ws m s).2.2, e = Event.sent ws m := by
  rw [sendSafeMessage_events]
  split
  · intro e he
    simpa using he
  · intro e he
    simp at he

theorem removeAll_events_mem (env : Env) :
    ∀ (l : List String) (s : ServerState), ∀ e ∈ (removeAll env l s).2,
      (∃ w c r, e = Event.closed w c r) ∨ ∃ p, e = Event.scheduledLeft p := by
  intro l
  induction l with
  | nil =>
    intro s e he
    simp [removeAll] at he
  | cons pid rest ih =>
    intro s e he
    have h1 : (removeAll env (pid :: rest) s).2 =
        (removePlayer env pid s).2 ++
          (removeAll env rest (removePlayer env pid s).1).2 := rfl
    rw [h1] at he
    rcases List.mem_append.1 he with he | he
    · exact removePlayer_events_mem env pid s e he
    · exact ih _ e he

/-- Events emitted by `handleMessage` are never `dispatched` markers nor
`game_state` sends (its replies are `pong` / `system_info_received` /
`heartbeat_response`). -/
theorem handleMessage_events_benign (env : Env) (ws : Nat) (pid : String)
    (raw : Raw) (s : ServerState) :
    ∀ e ∈ (handleMessage env ws pid raw s).2,
      isDispatchEv e = false ∧ isGameStateSendEv e = false := by
  have hswitch : ∀ (data : JSValue) (s1 : ServerState),
      ∀ e ∈ (dispatchSwitch env ws pid data s1).2,
        isDispatchEv e = false ∧ isGameStateSendEv e = false := by
    intro data s1
    unfold dispatchSwitch
    split
    · rename_i tv heq
      split_ifs <;> intro e he
      · simp at he
      · rw [sendSafeMessage_events_mem env ws _ s1 e he]
        exact ⟨rfl, rfl⟩
      · rw [sendSafeMessage_events_mem env ws _ s1 e he]
        exact ⟨rfl, rfl⟩
      · rcases removePlayer_events_mem env pid s1 e he with ⟨w, c, r, hh⟩ | ⟨p, hh⟩ <;>
          rw [hh] <;> exact ⟨rfl, rfl⟩
      · rw [sendSafeMessage_events_mem env ws _ s1 e he]
        exact ⟨rfl, rfl⟩
      · simp at he
    · intro e he
      simp at he
  unfold handleMessage
  split
  · intro e he
    simp at he
  · rename_i data hr
    unfold dispatchParsed
    split
    · intro e he
      simp at he
    · rename_i p hp
      intro e he
      by_cases h1 : data = .vNull
      · subst h1
        simp [dispatchTyped] at he
      · by_cases h2 : data = .vUndefined
        · subst h2
          simp [dispatchTyped] at he
        · rw [dispatchTyped_eq env ws pid data _ h1 h2] at he
          exact hswitch data _ e he

theorem dispatchBatch_events_filter (env : Env) :
    ∀ (batch : List QItem) (s : ServerState),
      (dispatchBatch env batch s).2.filter isDispatchEv =
        batch.map Event.dispatched := by
  intro batch
  induction batch with
  | nil => intro s; rfl
  | cons q rest ih =>
    intro s
    have h1 : (dispatchBatch env (q :: rest) s).2 =
        (Event.dispatched q :: (handleMessage env q.ws q.playerId q.message s).2) ++
          (dispatchBatch env rest
            (handleMessage env q.ws q.playerId q.message s).1).2 := rfl
    rw [h1, List.filter_append, List.filter_cons_of_pos (by rfl)]
    rw [filter_nil_of_false isDispatchEv _
      (fun e he => (handleMessage_events_benign env q.ws q.playerId q.message s e he).1)]
    rw [ih]
    rfl

theorem dispatchBatch_events_no_gs (env : Env) :
    ∀ (batch : List QItem) (s : ServerState),
      (dispatchBatch env batch s).2.filter isGameStateSendEv = [] := by
  intro batch
  induction batch with
  | nil => intro s; rfl
  | cons q rest ih =>
    intro s
    have h1 : (dispatchBatch env (q :: rest) s).2 =
        (Event.dispatched q :: (handleMessage env q.ws q.playerId q.message s).2) ++
          (dispatchBatch env rest
            (handleMessage env q.ws q.playerId q.message s).1).2 := rfl
    rw [h1, List.filter_append, List.filter_cons_of_neg (by simp [isGameStateSendEv])]
    rw [filter_nil_of_false isGameStateSendEv _
      (fun e he => (handleMessage_events_benign env q.ws q.playerId q.message s e he).2)]
    rw [ih]
    rfl

theorem removeAll_events_filter (env : Env) (l : List String) (s : ServerState)
    (f : Event → Bool)
    (hc : ∀ w c r, f (Event.closed w c r) = false)
    (hl : ∀ p, f (Event.scheduledLeft p) = false) :
    (removeAll env l s).2.filter f = [] := by
  apply filter_nil_of_false
  intro e he
  rcases removeAll_events_mem env l s e he with ⟨w, c, r, hh⟩ | ⟨p, hh⟩
  · rw [hh]; exact hc w c r
  · rw [hh]; exact hl p

theorem cleanupInactivePlayers_events_filter (env : Env) (s : ServerState)
    (f : Event → Bool)
    (hc : ∀ w c r, f (Event.closed w c r) = false)
    (hl : ∀ p, f (Event.scheduledLeft p) = false) :
    (cleanupInactivePlayers env s).2.filter f = [] := by
  unfold cleanupInactivePlayers
  exact removeAll_events_filter env _ s f hc hl

theorem broadcastList_events_mem (env : Env) (m : OutMsg) :
    ∀ (l : List (String × Nat)) (s : ServerState),
      ∀ e ∈ (broadcastList env m l s).2.2, ∃ w, e = Event.sent w m := by
  intro l
  induction l with
  | nil =>
    intro s e he
    simp [broadcastList] at he
  | cons x rest ih =>
    intro s e he
    have h1 : (broadcastList env m (x :: rest) s).2.2 =
        (sendSafeMessage env x.2 m s).2.2 ++
          (broadcastList env m rest (sendSafeMessage env x.2 m s).2.1).2.2 := rfl
    rw [h1] at he
    rcases List.mem_append.1 he with he | he
    · exact ⟨x.2, sendSafeMessage_events_mem env x.2 m s e he⟩
    · exact ih _ e he

/-- Every event of `broadcastGameState` is either a send of the one
`game_state` message built from the pre-broadcast snapshot, or a
close/announcement event from the post-send removals. -/
theorem broadcastGameState_events_mem (env : Env) (s : ServerState) :
    ∀ e ∈ (broadcastGameState env s).2,
      (∃ w, e = Event.sent w
        (OutMsg.game_state s.gsPlayers s.maxPlayers s.gameTime env.now)) ∨
      (∃ w c r, e = Event.closed w c r) ∨ ∃ p, e = Event.scheduledLeft p := by
  unfold broadcastGameState
  split
  · intro e he
    simp at he
  · intro e he
    have he' : e ∈ (broadcastList env
          (OutMsg.game_state s.gsPlayers s.maxPlayers s.gameTime env.now)
          (s.players.map (fun x => (x.1, x.2.ws))) s).2.2 ++
        (removeAll env
          (broadcastList env
            (OutMsg.game_state s.gsPlayers s.maxPlayers s.gameTime env.now)
            (s.players.map (fun x => (x.1, x.2.ws))) s).1
          (broadcastList env
            (OutMsg.game_state s.gsPlayers s.maxPlayers s.gameTime env.now)
            (s.players.map (fun x => (x.1, x.2.ws))) s).2.1).2 := he
    rcases List.mem_append.1 he' with hm | hm
    · exact Or.inl (broadcastList_events_mem env _ _ s e hm)
    · exact Or.inr (removeAll_events_mem env _ _ e hm)

/-! ## Registry/store/snapshot consistency (claim C1) -/

/-- The maintained invariant: no duplicate keys in any of the three maps,
the Player Store and the WorldSnapshot have the same key set, every
player's stored handle is registered back to that player, and every
Connection Registry entry points at a registered player holding exactly
that handle. -/
def Inv (s : ServerState) : Prop :=
  (keys s.players).Nodup ∧
  (keys s.connections).Nodup ∧
  (keys s.gsPlayers).Nodup ∧
  (∀ pid, mhas pid s.players = true ↔ mhas pid s.gsPlayers = true) ∧
  (∀ pid p, mget pid s.players = some p → mget p.ws s.connections = some pid) ∧
  (∀ w pid, mget w s.connections = some pid →
    ∃ p, mget pid s.players = some p ∧ p.ws = w)

theorem Inv_initialState : Inv initialState := by
  refine ⟨by simp [initialState, keys], by simp [initialState, keys],
    by simp [initialState, keys], ?_, ?_, ?_⟩
  · intro pid
    simp [initialState, mhas, mget]
  · intro pid p hp
    simp [initialState, mget] at hp
  · intro w pid hw
    simp [initialState, mget] at hw

theorem Inv_removePlayer (env : Env) (pid : String) {s : ServerState} (h : Inv s) :
    Inv (removePlayer env pid s).1 := by
  obtain ⟨h1, h2, h3, h4, h5, h6⟩ := h
  unfold removePlayer
  cases hp : mget pid s.players with
  | none => exact ⟨h1, h2, h3, h4, h5, h6⟩
  | some player =>
    refine ⟨nodup_keys_mdel h1, nodup_keys_mdel h2, nodup_keys_mdel h3, ?_, ?_, ?_⟩
    · intro x
      by_cases hx : x = pid
      · subst hx
        simp [mhas, mget_mdel_self]
      · rw [show mhas x (mdel pid s.players) = mhas x s.players by
            simp [mhas, mget_mdel_ne _ hx]]
        rw [show mhas x (mdel pid s.gsPlayers) = mhas x s.gsPlayers by
            simp [mhas, mget_mdel_ne _ hx]]
        exact h4 x
    · intro pid' p' hp'
      by_cases hx : pid' = pid
      · subst hx
        rw [mget_mdel_self] at hp'
        cases hp'
      · rw [mget_mdel_ne _ hx] at hp'
        have hc := h5 pid' p' hp'
        have hne : p'.ws ≠ player.ws := by
          intro he
          have hcp := h5 pid player hp
          rw [he] at hc
          rw [hcp] at hc
          exact hx (Option.some.inj hc).symm
        rw [mget_mdel_ne _ hne]
        exact hc
    · intro w pid' hw
      by_cases hww : w = player.ws
      · subst hww
        rw [mget_mdel_self] at hw
        cases hw
      · rw [mget_mdel_ne _ hww] at hw
        obtain ⟨p2, hp2, hws2⟩ := h6 w pid' hw
        have hne : pid' ≠ pid := by
          intro he
          subst he
          rw [hp] at hp2
          have : player = p2 := Option.some.inj hp2
          rw [← this] at hws2
          exact hww hws2.symm
        refine ⟨p2, ?_, hws2⟩
        rw [mget_mdel_ne _ hne]
        exact hp2

/-- Updating the record stored for a registered player without changing its
connection handle (as the `messagesSent` / `messagesReceived` /
`lastUpdate` / transform writes do) preserves the invariant. -/
theorem Inv_update_value {s : ServerState} {pid : String} {p q : Player}
    (h : Inv s) (hp : mget pid s.players = some p) (hw : q.ws = p.ws) :
    Inv { s with players := mset pid q s.players } := by
  obtain ⟨h1, h2, h3, h4, h5, h6⟩ := h
  have hhas : mhas pid s.players = true := by simp [mhas, hp]
  refine ⟨nodup_keys_mset h1, h2, h3, ?_, ?_, ?_⟩
  · intro x
    rw [show (mhas x (mset pid q s.players) = true) = (x = pid ∨ mhas x s.players = true)
        from propext mhas_mset_iff]
    constructor
    · rintro (rfl | hx)
      · exact (h4 _).1 hhas
      · exact (h4 _).1 hx
    · intro hx
      exact Or.inr ((h4 _).2 hx)
  · intro pid' p' hp'
    by_cases hx : pid' = pid
    · subst hx
      rw [mget_mset_self] at hp'
      have : q = p' := Option.some.inj hp'
      rw [← this, hw]
      exact h5 _ _ hp
    · rw [mget_mset_ne _ _ hx] at hp'
      exact h5 _ _ hp'
  · intro w pid' hwc
    obtain ⟨p2, hp2, hws2⟩ := h6 w pid' hwc
    by_cases hx : pid' = pid
    · subst hx
      refine ⟨q, mget_mset_self _ _ _, ?_⟩
      rw [hp] at hp2
      have : p = p2 := Option.some.inj hp2
      rw [hw, this]
      exact hws2
    · refine ⟨p2, ?_, hws2⟩
      rw [mget_mset_ne _ _ hx]
      exact hp2

theorem Inv_bumpSent (ws : Nat) {s : ServerState} (h : Inv s) :
    Inv (bumpSent ws s) := by
  unfold bumpSent
  split
  · split
    · rename_i pid hc p hp
      exact Inv_update_value h hp rfl
    · exact h
  · exact h

theorem Inv_sendSafeMessage (env : Env) (ws : Nat) (m : OutMsg) {s : ServerState}
    (h : Inv s) : Inv (sendSafeMessage env ws m s).2.1 := by
  unfold sendSafeMessage
  split
  · split
    · exact h
    · exact Inv_bumpSent ws h
  · exact h

theorem evictExisting_fst (env : Env) (pid : String) (s : ServerState) :
    (evictExisting env pid s).1 = (removePlayer env pid s).1 := by
  unfold evictExisting removePlayer
  cases hp : mget pid s.players with
  | none => rfl
  | some oldPlayer => rfl

theorem mget_removePlayer_self (env : Env) (pid : String) (s : ServerState) :
    mget pid (removePlayer env pid s).1.players = none := by
  unfold removePlayer
  cases hp : mget pid s.players with
  | none => exact hp
  | some player => exact mget_mdel_self _ _

theorem removePlayer_connections_mono (env : Env) (pid : String) (s : ServerState)
    {w : Nat} (h : mhas w (removePlayer env pid s).1.connections = true) :
    mhas w s.connections = true := by
  unfold removePlayer at h
  cases hp : mget pid s.players with
  | none =>
    rw [hp] at h
    exact h
  | some player =>
    rw [hp] at h
    exact (mhas_mdel_iff.1 h).2

theorem Inv_insertNewPlayer (env : Env) (connId ws : Nat) (pid : String)
    {s : ServerState} (h : Inv s) (hnone : mget pid s.players = none)
    (hfresh : mhas ws s.connections = false) :
    Inv (insertNewPlayer env connId ws pid s) := by
  obtain ⟨h1, h2, h3, h4, h5, h6⟩ := h
  dsimp only [insertNewPlayer]
  refine ⟨nodup_keys_mset h1, nodup_keys_mset h2, nodup_keys_mset h3, ?_, ?_, ?_⟩
  · intro x
    rw [show (mhas x (mset pid (newPlayer env connId ws pid) s.players) = true) =
        (x = pid ∨ mhas x s.players = true) from propext mhas_mset_iff]
    rw [show (mhas x (mset pid (snapEntryOf pid (newPlayer env connId ws pid)) s.gsPlayers) = true) =
        (x = pid ∨ mhas x s.gsPlayers = true) from propext mhas_mset_iff]
    constructor
    · rintro (rfl | hx)
      · exact Or.inl rfl
      · exact Or.inr ((h4 _).1 hx)
    · rintro (rfl | hx)
      · exact Or.inl rfl
      · exact Or.inr ((h4 _).2 hx)
  · intro pid' p' hp'
    by_cases hx : pid' = pid
    · subst hx
      rw [mget_mset_self] at hp'
      have hq : newPlayer env connId ws pid' = p' := Option.some.inj hp'
      rw [← hq]
      exact mget_mset_self _ _ _
    · rw [mget_mset_ne _ _ hx] at hp'
      have hc := h5 pid' p' hp'
      have hne : p'.ws ≠ ws := by
        intro he
        rw [he] at hc
        rw [mhas_eq_false_iff] at hfresh
        rw [hfresh] at hc
        cases hc
      rw [mget_mset_ne _ _ hne]
      exact hc
  · intro w pid' hwc
    by_cases hww : w = ws
    · subst hww
      rw [mget_mset_self] at hwc
      have : pid = pid' := Option.some.inj hwc
      subst this
      exact ⟨newPlayer env connId w pid, mget_mset_self _ _ _, rfl⟩
    · rw [mget_mset_ne _ _ hww] at hwc
      obtain ⟨p2, hp2, hws2⟩ := h6 w pid' hwc
      have hne : pid' ≠ pid := by
        intro he
        subst he
        rw [hnone] at hp2
        cases hp2
      refine ⟨p2, ?_, hws2⟩
      rw [mget_mset_ne _ _ hne]
      exact hp2

theorem Inv_addPlayer (env : Env) (connId ws : Nat) (pid : String)
    {s : ServerState} (h : Inv s) (hfresh : mhas ws s.connections = false) :
    Inv (addPlayer env connId ws pid s).1 := by
  have hInv1 : Inv (evictExisting env pid s).1 := by
    rw [evictExisting_fst]
    exact Inv_removePlayer env pid h
  have hnone1 : mget pid (evictExisting env pid s).1.players = none := by
    rw [evictExisting_fst]
    exact mget_removePlayer_self env pid s
  have hfresh1 : mhas ws (evictExisting env pid s).1.connections = false := by
    rw [evictExisting_fst]
    cases hb : mhas ws (removePlayer env pid s).1.connections
    · rfl
    · rw [removePlayer_connections_mono env pid s hb] at hfresh
      simp at hfresh
  exact Inv_sendSafeMessage env ws _
    (Inv_insertNewPlayer env connId ws pid hInv1 hnone1 hfresh1)

/-! ## Sequences of register/deregister calls -/

/-- One Player-Store lifecycle call together with its ambient environment
and the fresh values (`crypto.randomUUID`, the accepted connection handle)
the caller supplies. -/
inductive Op where
  | add (env : Env) (connId ws : Nat) (playerId : String) : Op
  | remove (env : Env) (playerId : String) : Op

def applyOp (s : ServerState) : Op → ServerState
  | .add env connId ws playerId => (addPlayer env connId ws playerId s).1
  | .remove env playerId => (removePlayer env playerId s).1

def exec (s : ServerState) (ops : List Op) : ServerState := ops.foldl applyOp s

/-- The Session Coordinator calls `addPlayer` once per accepted connection,
with that connection's own (hence not currently registered) handle. -/
def freshOk (s : ServerState) : Op → Bool
  | .add _ _ ws _ => !(mhas ws s.connections)
  | .remove _ _ => true

/-- All calls of the sequence pass a handle that is fresh at call time. -/
def freshRun : ServerState → List Op → Bool
  | _, [] => true
  | s, op :: rest => freshOk s op && freshRun (applyOp s op) rest

theorem Inv_applyOp {s : ServerState} {op : Op} (h : Inv s)
    (hok : freshOk s op = true) : Inv (applyOp s op) := by
  cases op with
  | add env connId ws playerId =>
    have : mhas ws s.connections = false := by
      simpa [freshOk] using hok
    exact Inv_addPlayer env connId ws playerId h this
  | remove env playerId => exact Inv_removePlayer env playerId h

theorem Inv_exec_take :
    ∀ (ops : List Op) (s : ServerState), Inv s → freshRun s ops = true →
      ∀ n, Inv (exec s (ops.take n)) := by
  intro ops
  induction ops with
  | nil =>
    intro s h _ n
    simpa [exec] using h
  | cons op rest ih =>
    intro s h hrun n
    have hrun2 : freshOk s op = true ∧ freshRun (applyOp s op) rest = true := by
      simpa [freshRun, Bool.and_eq_true] using hrun
    obtain ⟨hok, hrun'⟩ := hrun2
    cases n with
    | zero => simpa [exec] using h
    | succ n =>
      have : exec s ((op :: rest).take (n + 1)) = exec (applyOp s op) (rest.take n) := by
        simp [exec, List.foldl]
      rw [this]
      exact ih (applyOp s op) (Inv_applyOp h hok) hrun' n

/-- The consistency property asserted by claim C1: the Player Store and the
WorldSnapshot have the same key set, connection entries have pairwise
distinct handles, every registered id has exactly one connection entry
mapping to it, and every connection entry maps to a registered id. -/
def RegistryConsistent (s : ServerState) : Prop :=
  (∀ pid, mhas pid s.players = true ↔ mhas pid s.gsPlayers = true) ∧
  (keys s.connections).Nodup ∧
  (∀ pid, mhas pid s.players = true →
    ∃ w, mget w s.connections = some pid ∧
      ∀ w', mget w' s.connections = some pid → w' = w) ∧
  (∀ w pid, mget w s.connections = some pid → mhas pid s.players = true)

theorem registryConsistent_of_inv {s : ServerState} (h : Inv s) :
    RegistryConsistent s := by
  obtain ⟨_, h2, _, h4, h5, h6⟩ := h
  refine ⟨h4, h2, ?_, ?_⟩
  · intro pid hp
    obtain ⟨p, hp'⟩ := (mhas_eq_true_iff _ _).1 hp
    refine ⟨p.ws, h5 _ _ hp', ?_⟩
    intro w' hw'
    obtain ⟨p2, hp2, hws2⟩ := h6 w' pid hw'
    rw [hp'] at hp2
    rw [← hws2, Option.some.inj hp2]
  · intro w pid hw
    obtain ⟨p2, hp2, _⟩ := h6 w pid hw
    simp [mhas, hp2]

/-! ## Claims -/

/-- Claim C1: for every sequence of register (`addPlayer`) and deregister
(`removePlayer`) calls — each `addPlayer` receiving a connection handle
that is not currently registered, as the Session Coordinator guarantees by
calling it once per accepted connection — after each call the key set of
the Player Store equals the key set of the WorldSnapshot, every registered
id has exactly one Connection Registry entry mapping to it (and the
registry's handles are pairwise distinct), and every Connection Registry
entry maps to a currently registered id. -/
theorem C1_registry_consistency (ops : List Op)
    (h : freshRun initialState ops = true) (n : Nat) :
    RegistryConsistent (exec initialState (ops.take n)) :=
  registryConsistent_of_inv (Inv_exec_take ops initialState Inv_initialState h n)

/-- A concrete environment for the witnesses: every connection open, no
send failures. -/
def envW : Env := ⟨1000, fun _ => true, fun _ => false⟩

/-- A concrete call sequence: two registrations, a deregistration, and a
re-registration of a still-live id (a reconnect). -/
def opsW : List Op :=
  [Op.add envW 11 1 "1", Op.add envW 12 2 "2", Op.remove envW "2",
   Op.add envW 13 3 "1"]

/-- Witness for C1 at the concrete call sequence `opsW`. -/
theorem C1_registry_consistency_witness :
    freshRun initialState opsW = true ∧
      RegistryConsistent (exec initialState (opsW.take 4)) :=
  ⟨by rfl, C1_registry_consistency opsW (by rfl) 4⟩

/-- Claim C2: calling `addPlayer` for an id that already has a live entry
first evicts the prior entry — its connection is closed with the
`Reconnecting` reason when still open, its handle disappears from the
Connection Registry, and its Player Store and WorldSnapshot entries are
replaced by the freshly created default ones — and the resulting store
holds a single entry for the id (no two live entries ever coexist). -/
theorem C2_reregistration_evicts (env : Env) (connId ws : Nat) (pid : String)
    (s : ServerState) (oldP : Player)
    (hold : mget pid s.players = some oldP)
    (hnd : (keys s.players).Nodup) :
    (∃ q, mget pid (addPlayer env connId ws pid s).1.players = some q ∧
       q.ws = ws ∧ q.connectionId = connId ∧ q.lastUpdate = env.now ∧
       q.position = defaultVec ∧ q.rotation = defaultVec ∧
       q.animation = JSValue.vStr "root|Idle") ∧
    (oldP.ws ≠ ws →
       mget oldP.ws (addPlayer env connId ws pid s).1.connections = none) ∧
    (env.isOpen oldP.ws = true →
       Event.closed oldP.ws 1000 "Reconnecting" ∈ (addPlayer env connId ws pid s).2) ∧
    (keys (addPlayer env connId ws pid s).1.players).Nodup ∧
    mget pid (addPlayer env connId ws pid s).1.gsPlayers =
      some (snapEntryOf pid (newPlayer env connId ws pid)) := by
  have hs1 : (evictExisting env pid s).1 =
      { s with
          connections := mdel oldP.ws s.connections
          players := mdel pid s.players
          gsPlayers := mdel pid s.gsPlayers } := by
    rw [evictExisting_fst, removePlayer_some env pid hold]
  refine ⟨?_, ?_, ?_, ?_, ?_⟩
  · obtain ⟨n, hq⟩ := addPlayer_new_entry env connId ws pid s
    exact ⟨_, hq, rfl, rfl, rfl, rfl, rfl, rfl⟩
  · intro hne
    rw [addPlayer_fst, sendSafeMessage_connections, insertNewPlayer_connections,
      hs1, mget_mset_ne _ _ hne]
    exact mget_mdel_self _ _
  · intro hopen
    rw [addPlayer_snd, evictExisting_some env pid hold, hopen]
    simp
  · rw [addPlayer_fst]
    apply sendSafeMessage_players_nodup
    rw [insertNewPlayer_players]
    apply nodup_keys_mset
    rw [hs1]
    exact nodup_keys_mdel hnd
  · rw [addPlayer_fst, sendSafeMessage_gsPlayers, insertNewPlayer_gsPlayers,
      mget_mset_self]

/-- The one-player state the C2 witness starts from. -/
def sW : ServerState := (addPlayer envW 11 1 "1" initialState).1

/-- The live entry `sW` holds for id "1" (its `player_connected` greeting
succeeded, so `messagesSent` is 1). -/
def pW : Player := { newPlayer envW 11 1 "1" with messagesSent := 1 }

/-- Witness for C2: re-registering the live id "1" on a new connection. -/
theorem C2_reregistration_evicts_witness :
    (∃ q, mget "1" (addPlayer envW 12 2 "1" sW).1.players = some q ∧
       q.ws = 2 ∧ q.connectionId = 12 ∧ q.lastUpdate = envW.now ∧
       q.position = defaultVec ∧ q.rotation = defaultVec ∧
       q.animation = JSValue.vStr "root|Idle") ∧
    (pW.ws ≠ 2 → mget pW.ws (addPlayer envW 12 2 "1" sW).1.connections = none) ∧
    (envW.isOpen pW.ws = true →
       Event.closed pW.ws 1000 "Reconnecting" ∈ (addPlayer envW 12 2 "1" sW).2) ∧
    (keys (addPlayer envW 12 2 "1" sW).1.players).Nodup ∧
    mget "1" (addPlayer envW 12 2 "1" sW).1.gsPlayers =
      some (snapEntryOf "1" (newPlayer envW 12 2 "1")) :=
  C2_reregistration_evicts envW 12 2 "1" sW pW (by rfl) (by decide)

theorem notStruct_guard (x : JSValue) (h : isStructuredRecord x = false) :
    (truthy x && isObjType x) = false := by
  cases x <;> simp [truthy, isObjType, isStructuredRecord] at h ⊢

/-- Claim C4: `updatePlayerPosition` is a no-op when the id is not
registered; and when it is registered but the payload's `position` or
`rotation` is not a structured object (`null`, `undefined` and primitives
all fail the `data.position && typeof data.position === 'object'` guard),
the state — in particular the player's position, rotation and animation —
is left entirely unchanged. -/
theorem C4_update_transform_validation (env : Env) (pid : String)
    (data : JSValue) (s : ServerState) :
    (mget pid s.players = none → updatePlayerPosition env pid data s = s) ∧
    ((isStructuredRecord (jsGet data "position") = false ∨
        isStructuredRecord (jsGet data "rotation") = false) →
      updatePlayerPosition env pid data s = s) := by
  constructor
  · intro h
    unfold updatePlayerPosition
    rw [h]
  · intro h
    unfold updatePlayerPosition
    cases hp : mget pid s.players with
    | none => rfl
    | some player =>
      show applyTransform env pid data player s = s
      unfold applyTransform
      have habcd : ∀ a b c d : Bool, ((a && b) = false ∨ (c && d) = false) →
          (a && b && c && d) = false := by decide
      have hguard := habcd _ _ _ _ (h.imp (notStruct_guard _) (notStruct_guard _))
      rw [hguard]
      simp

/-- A `position_update` payload whose `position` is a primitive. -/
def dBad : JSValue :=
  .vObj [("type", .vStr "position_update"), ("position", .vNum 5),
         ("rotation", .vObj [("x", .vNum 1), ("y", .vNum 2), ("z", .vNum 3)])]

/-- Witness for C4: a malformed transform for the registered id "1" and
any payload for the unknown id "9" both leave `sW` untouched. -/
theorem C4_update_transform_validation_witness :
    updatePlayerPosition envW "1" dBad sW = sW ∧
    updatePlayerPosition envW "9" dBad sW = sW :=
  ⟨(C4_update_transform_validation envW "1" dBad sW).2 (Or.inl (by rfl)),
   (C4_update_transform_validation envW "9" dBad sW).1 (by rfl)⟩

/-- Claim C5 counterexample: the animation label of a newly registered
player is the code's default `"root|Idle"`, not the `"idle"` stated by the
spec. -/
theorem C5_default_animation_cex :
    (mget "1" (addPlayer envW 11 7 "1" initialState).1.players).map
        Player.animation = some (JSValue.vStr "root|Idle") ∧
    JSValue.vStr "root|Idle" ≠ JSValue.vStr "idle" := by
  refine ⟨by rfl, ?_⟩
  intro h
  injection h with h2
  exact absurd h2 (by decide)

/-- Claim C5 (amended): every newly registered player starts with position
`{x:0,y:0,z:0}`, rotation `{x:0,y:0,z:0}`, and the default animation label
`"root|Idle"` (the code's default tag — not `"idle"`). -/
theorem C5_default_transform (env : Env) (connId ws : Nat) (pid : String)
    (s : ServerState) :
    (mget pid (addPlayer env connId ws pid s).1.players).map
        (fun q => (q.position, q.rotation, q.animation)) =
      some (defaultVec, defaultVec, JSValue.vStr "root|Idle") := by
  obtain ⟨n, hq⟩ := addPlayer_new_entry env connId ws pid s
  rw [hq]
  rfl

/-- Claim C9: a message arriving for an id before its registration
completes (the settle-delay window) is dropped at dispatch: no state
change, no reply, and the tick that dequeues it consumes it from the
queue without buffering it for later. -/
theorem C9_early_message_lost (env : Env) (ws : Nat) (pid : String) (raw : Raw)
    (s : ServerState) (h : mhas pid s.players = false) :
    handleMessage env ws pid raw s = (s, []) ∧
    (processMessageQueue env
        (queueMessage ws pid raw { s with messageQueue := [] })).1 =
      { s with messageQueue := [] } := by
  have hm : mget pid s.players = none := (mhas_eq_false_iff _ _).1 h
  constructor
  · exact handleMessage_unregistered env ws pid raw hm
  · have h1 : (processMessageQueue env
        (queueMessage ws pid raw { s with messageQueue := [] })).1 =
        (handleMessage env ws pid raw
          { s with messageQueue := ([] : List QItem) }).1 := rfl
    rw [h1, handleMessage_unregistered env ws pid raw
      (show mget pid ({ s with messageQueue := ([] : List QItem) }).players = none
        from hm)]

/-- Witness for C9: a `ping` from the not-yet-registered id "5". -/
theorem C9_early_message_lost_witness :
    handleMessage envW 9 "5" (Raw.good (.vObj [("type", .vStr "ping")])) sW =
      (sW, []) ∧
    (processMessageQueue envW
        (queueMessage 9 "5" (Raw.good (.vObj [("type", .vStr "ping")]))
          { sW with messageQueue := [] })).1 =
      { sW with messageQueue := [] } :=
  C9_early_message_lost envW 9 "5" (Raw.good (.vObj [("type", .vStr "ping")]))
    sW (by rfl)

/-- Claim C10: every parseable message addressed to a registered player —
including a `position_update` whose transform fails validation and a
message with an unknown type tag — leaves the player with
`lastUpdate = now` and `messagesReceived` incremented, regardless of the
type-specific handling (`disconnect`, which deregisters the sender instead,
excepted). -/
theorem C10_liveness_refresh (env : Env) (ws : Nat) (pid : String) (raw : Raw)
    (s : ServerState) (v : JSValue) (p : Player)
    (hp : mget pid s.players = some p) (hv : jsonParse raw = some v)
    (hnd : jsGet v "type" ≠ JSValue.vStr "disconnect") :
    ∃ p', mget pid (handleMessage env ws pid raw s).1.players = some p' ∧
      p'.lastUpdate = env.now ∧
      p'.messagesReceived = p.messagesReceived + 1 := by
  rw [handleMessage_eq_some env ws pid raw s v hv,
    dispatchParsed_some env ws pid v hp]
  have htp := touchPlayer_mget_self env pid p s
  by_cases h1 : v = .vNull
  · subst h1
    exact ⟨_, htp, rfl, rfl⟩
  · by_cases h2 : v = .vUndefined
    · subst h2
      exact ⟨_, htp, rfl, rfl⟩
    · rw [dispatchTyped_eq env ws pid v _ h1 h2]
      exact dispatchSwitch_keeps env ws pid v _ _ htp rfl hnd

theorem processMessageQueue_events_filter (env : Env) (s : ServerState) :
    (processMessageQueue env s).2.filter isDispatchEv =
      (s.messageQueue.take 50).map Event.dispatched := by
  unfold processMessageQueue
  exact dispatchBatch_events_filter env _ _

theorem processMessageQueue_events_no_gs (env : Env) (s : ServerState) :
    (processMessageQueue env s).2.filter isGameStateSendEv = [] := by
  unfold processMessageQueue
  exact dispatchBatch_events_no_gs env _ _

theorem broadcastGameState_no_dispatch (env : Env) (s : ServerState) :
    (broadcastGameState env s).2.filter isDispatchEv = [] := by
  apply filter_nil_of_false
  intro e he
  rcases broadcastGameState_events_mem env s e he with
    ⟨w, hh⟩ | ⟨w, c, r, hh⟩ | ⟨p, hh⟩ <;> rw [hh] <;> rfl

/-- Claim C6: each tick's message-processing step removes exactly the first
`min(50, length)` messages from the front of the queue, leaving the rest
for later ticks; it dispatches exactly those messages, in arrival order;
and all their dispatches complete before the tick's `game_state` broadcast
(the tick's event trace splits into a `game_state`-free prefix containing
every dispatch, followed by a dispatch-free suffix). -/
theorem C6_bounded_batch_drain (env : Env) (s : ServerState) :
    (tick env s).1.messageQueue = s.messageQueue.drop 50 ∧
    (s.messageQueue.take 50).length = min 50 s.messageQueue.length ∧
    (tick env s).2.filter isDispatchEv =
      (s.messageQueue.take 50).map Event.dispatched ∧
    ∃ l1 l2, (tick env s).2 = l1 ++ l2 ∧
      l1.filter isGameStateSendEv = [] ∧ l2.filter isDispatchEv = [] := by
  refine ⟨tick_messageQueue env s, by simp, ?_, ?_⟩
  · rw [tick_snd, List.filter_append, List.filter_append,
      cleanupInactivePlayers_events_filter env _ isDispatchEv
        (fun _ _ _ => rfl) (fun _ => rfl),
      processMessageQueue_events_filter, broadcastGameState_no_dispatch,
      (cleanupInactivePlayers_qt env _).1]
    simp
  · refine ⟨(cleanupInactivePlayers env
          { s with gameTime := s.gameTime + 1000 / tickRate }).2 ++
        (processMessageQueue env
          (cleanupInactivePlayers env
            { s with gameTime := s.gameTime + 1000 / tickRate }).1).2,
      (broadcastGameState env
        (processMessageQueue env
          (cleanupInactivePlayers env
            { s with gameTime := s.gameTime + 1000 / tickRate }).1).1).2,
      tick_snd env s, ?_, ?_⟩
    · rw [List.filter_append,
        cleanupInactivePlayers_events_filter env _ isGameStateSendEv
          (fun _ _ _ => rfl) (fun _ => rfl),
        processMessageQueue_events_no_gs]
      rfl
    · exact broadcastGameState_no_dispatch env _

/-- Claim C7: a queued message whose payload fails to parse is dropped
without touching any state and without a reply, and removing it from a
dispatch batch does not change the state the batch produces — neither the
rest of the batch nor other players are affected. -/
theorem C7_malformed_payload_isolated (env : Env) (ws : Nat) (pid : String)
    (raw : Raw) (s : ServerState) (hbad : jsonParse raw = none) :
    handleMessage env ws pid raw s = (s, []) ∧
    ∀ l1 l2 : List QItem,
      (dispatchBatch env (l1 ++ ⟨ws, pid, raw⟩ :: l2) s).1 =
        (dispatchBatch env (l1 ++ l2) s).1 := by
  refine ⟨handleMessage_eq_none env ws pid raw s hbad, ?_⟩
  intro l1 l2
  induction l1 generalizing s with
  | nil =>
    have h1 : (dispatchBatch env ([] ++ ⟨ws, pid, raw⟩ :: l2) s).1 =
        (dispatchBatch env l2 (handleMessage env ws pid raw s).1).1 := rfl
    rw [h1, handleMessage_eq_none env ws pid raw s hbad]
    rfl
  | cons q rest ih =>
    have h1 : ∀ l : List QItem, (dispatchBatch env (q :: l) s).1 =
        (dispatchBatch env l
          (handleMessage env q.ws q.playerId q.message s).1).1 := fun l => rfl
    rw [List.cons_append, h1, List.cons_append, h1]
    exact ih _

/-- A well-formed `heartbeat` item from the registered id "1". -/
def qGood : QItem := ⟨1, "1", Raw.good (.vObj [("type", .vStr "heartbeat")])⟩

/-- Witness for C7: a malformed frame between two well-formed ones. -/
theorem C7_malformed_payload_isolated_witness :
    handleMessage envW 9 "1" (Raw.bad "not json") sW = (sW, []) ∧
    (dispatchBatch envW ([qGood] ++ ⟨9, "1", Raw.bad "not json"⟩ :: [qGood]) sW).1 =
      (dispatchBatch envW ([qGood] ++ [qGood]) sW).1 :=
  ⟨(C7_malformed_payload_isolated envW 9 "1" (Raw.bad "not json") sW (by rfl)).1,
   (C7_malformed_payload_isolated envW 9 "1" (Raw.bad "not json") sW (by rfl)).2
     [qGood] [qGood]⟩

/-- Claim C8: with `tickRate = 20`, after `N` ticks from the initial state
the game-time accumulator equals `N * (1000 / tickRate)`, i.e. exactly
`50 * N` (repeated addition of 50 is exact in binary64 for these
magnitudes, so the rational model is exact). -/
theorem C8_game_time_accumulator (envs : Nat → Env) (N : Nat) :
    (tickN envs N initialState).gameTime = (N : ℚ) * (1000 / tickRate) ∧
    (tickN envs N initialState).gameTime = 50 * (N : ℚ) := by
  have key : ∀ (n : Nat) (es : Nat → Env) (s : ServerState),
      (tickN es n s).gameTime = s.gameTime + (n : ℚ) * (1000 / tickRate) := by
    intro n
    induction n with
    | zero =>
      intro es s
      simp [tickN]
    | succ n ih =>
      intro es s
      have h1 : tickN es (n + 1) s = tickN es n (tick (es n) s).1 := rfl
      rw [h1, ih es _, tick_gameTime]
      push_cast
      ring
  have h50 : (1000 / tickRate : ℚ) = 50 := by norm_num [tickRate]
  constructor
  · rw [key N envs initialState]
    simp [initialState]
  · rw [key N envs initialState, h50]
    simp [initialState]
    ring

/-- A connection on which `sendSafeMessage` reports failure: not open, or
`send` throws. -/
def sendFailsFor (env : Env) (w : Nat) : Prop :=
  env.isOpen w = false ∨ env.sendFails w = true

theorem sendSafeMessage_fails (env : Env) (w : Nat) (m : OutMsg) (s : ServerState)
    (h : sendFailsFor env w) : (sendSafeMessage env w m s).1 = false := by
  rw [sendSafeMessage_ok]
  rcases h with h | h <;> simp [h]

/-- A listed player whose connection fails lands in the to-remove list of
the send loop. -/
theorem broadcastList_fails_mem (env : Env) (m : OutMsg) :
    ∀ (l : List (String × Nat)) (s : ServerState) (pid : String) (w : Nat),
      (pid, w) ∈ l → sendFailsFor env w →
      pid ∈ (broadcastList env m l s).1 := by
  intro l
  induction l with
  | nil =>
    intro s pid w h _
    simp at h
  | cons x rest ih =>
    intro s pid w hmem hf
    have h1 : (broadcastList env m (x :: rest) s).1 =
        (if (sendSafeMessage env x.2 m s).1 then
          (broadcastList env m rest (sendSafeMessage env x.2 m s).2.1).1
         else x.1 :: (broadcastList env m rest (sendSafeMessage env x.2 m s).2.1).1) := rfl
    rw [h1]
    rcases List.mem_cons.1 hmem with he | he
    · have hx2 : x.2 = w := by rw [← he]
      have hx1 : x.1 = pid := by rw [← he]
      have hfx : (sendSafeMessage env x.2 m s).1 = false :=
        sendSafeMessage_fails env x.2 m s (hx2 ▸ hf)
      simp [hfx, hx1]
    · have hr := ih (sendSafeMessage env x.2 m s).2.1 pid w he hf
      split
      · exact hr
      · exact List.mem_cons_of_mem _ hr

theorem removePlayer_players_mono (env : Env) (q : String) (s : ServerState)
    {x : String} (h : mhas x (removePlayer env q s).1.players = true) :
    mhas x s.players = true := by
  unfold removePlayer at h
  cases hq : mget q s.players with
  | none =>
    rw [hq] at h
    exact h
  | some p =>
    rw [hq] at h
    exact (mhas_mdel_iff.1 h).2

theorem removeAll_mono (env : Env) :
    ∀ (l : List String) (s : ServerState) {x : String},
      mhas x (removeAll env l s).1.players = true → mhas x s.players = true := by
  intro l
  induction l with
  | nil => exact fun s x h => h
  | cons pid rest ih =>
    intro s x h
    have h1 : (removeAll env (pid :: rest) s).1 =
        (removeAll env rest (removePlayer env pid s).1).1 := rfl
    rw [h1] at h
    exact removePlayer_players_mono env pid s (ih _ h)

/-- Removing a listed id actually removes it (and nothing re-adds it). -/
theorem removeAll_removes (env : Env) :
    ∀ (l : List String) (s : ServerState) {pid : String},
      pid ∈ l → mhas pid (removeAll env l s).1.players = false := by
  intro l
  induction l with
  | nil =>
    intro s pid h
    simp at h
  | cons q rest ih =>
    intro s pid h
    have h1 : (removeAll env (q :: rest) s).1 =
        (removeAll env rest (removePlayer env q s).1).1 := rfl
    rcases List.mem_cons.1 h with he | he
    · subst he
      cases hb : mhas pid (removeAll env (pid :: rest) s).1.players with
      | false => rfl
      | true =>
        exfalso
        rw [h1] at hb
        have h2 := removeAll_mono env rest _ hb
        rw [mhas_eq_true_iff] at h2
        obtain ⟨v, hv⟩ := h2
        rw [mget_removePlayer_self env pid s] at hv
        cases hv
    · rw [h1]
      exact ih _ he

/-- Claim C3 (amended): in a tick's broadcast step, every registered player
whose connection reports not-open or whose send throws is deregistered
within that same step — but only after the send loop, so the `game_state`
message actually broadcast that tick is built from the pre-removal
snapshot and still contains the removed player; it disappears only from
the following ticks' broadcasts. -/
theorem C3_send_failure_removal (env : Env) (s : ServerState) (pid : String)
    (p : Player) (hp : mget pid s.players = some p)
    (hfail : env.isOpen p.ws = false ∨ env.sendFails p.ws = true)
    (hsnap : mhas pid s.gsPlayers = true) :
    mhas pid (broadcastGameState env s).1.players = false ∧
    ∀ e ∈ (broadcastGameState env s).2, ∀ w snap mp gt ts,
      e = Event.sent w (OutMsg.game_state snap mp gt ts) →
      snap = s.gsPlayers ∧ mhas pid snap = true := by
  have hne : ¬s.players.length = 0 := by
    cases hl : s.players with
    | nil =>
      rw [hl] at hp
      simp [mget] at hp
    | cons a rest => simp [hl]
  have hmem : (pid, p.ws) ∈ s.players.map (fun x => (x.1, x.2.ws)) :=
    List.mem_map.2 ⟨(pid, p), mget_some_mem hp, rfl⟩
  constructor
  · have hpidin : pid ∈ (broadcastList env
        (OutMsg.game_state s.gsPlayers s.maxPlayers s.gameTime env.now)
        (s.players.map (fun x => (x.1, x.2.ws))) s).1 :=
      broadcastList_fails_mem env _ _ s pid p.ws hmem hfail
    have h1 : (broadcastGameState env s).1 =
        (removeAll env
          (broadcastList env
            (OutMsg.game_state s.gsPlayers s.maxPlayers s.gameTime env.now)
            (s.players.map (fun x => (x.1, x.2.ws))) s).1
          (broadcastList env
            (OutMsg.game_state s.gsPlayers s.maxPlayers s.gameTime env.now)
            (s.players.map (fun x => (x.1, x.2.ws))) s).2.1).1 := by
      unfold broadcastGameState
      rw [if_neg hne]
    rw [h1]
    exact removeAll_removes env _ _ hpidin
  · intro e he w snap mp gt ts hes
    rcases broadcastGameState_events_mem env s e he with
      ⟨w2, hh⟩ | ⟨w2, c, r, hh⟩ | ⟨p2, hh⟩
    · rw [hes] at hh
      injection hh with hw hm
      injection hm with hsn hmp hgt hts
      exact ⟨hsn, by rw [hsn]; exact hsnap⟩
    · rw [hes] at hh
      simp at hh
    · rw [hes] at hh
      simp at hh

/-- The environment of the C3 scenario: handle 1 open, handle 2 closed. -/
def envC3 : Env := ⟨0, fun w => w == 1, fun _ => false⟩

/-- Player "1" on the open handle 1. -/
def p1C3 : Player := newPlayer envC3 21 1 "1"

/-- Player "2" on the closed handle 2. -/
def p2C3 : Player := newPlayer envC3 22 2 "2"

/-- A consistent two-player state with "1" reachable and "2" dead. -/
def stateC3 : ServerState :=
  { players := [("1", p1C3), ("2", p2C3)]
    connections := [(1, "1"), (2, "2")]
    gsPlayers := [("1", snapEntryOf "1" p1C3), ("2", snapEntryOf "2" p2C3)]
    maxPlayers := 8
    gameTime := 0
    messageQueue := []
    nextPlayerId := 3 }

/-- Claim C3 counterexample: in the broadcast step of `stateC3`, player "2"
(whose connection is not open) is indeed deregistered, but the one
`game_state` message actually sent that tick — to player "1" — still
carries "2" in its snapshot, contradicting the claim that the tick's
broadcast excludes the removed player. -/
theorem C3_same_tick_exclusion_cex :
    mhas "2" (broadcastGameState envC3 stateC3).1.players = false ∧
    (broadcastGameState envC3 stateC3).2 =
      [Event.sent 1 (OutMsg.game_state stateC3.gsPlayers 8 0 0),
       Event.scheduledLeft "2"] ∧
    mhas "2" stateC3.gsPlayers = true :=
  ⟨rfl, rfl, rfl⟩

/-- Witness for the amended C3 at the concrete two-player state. -/
theorem C3_send_failure_removal_witness :
    mhas "2" (broadcastGameState envC3 stateC3).1.players = false ∧
    ∀ e ∈ (broadcastGameState envC3 stateC3).2, ∀ w snap mp gt ts,
      e = Event.sent w (OutMsg.game_state snap mp gt ts) →
      snap = stateC3.gsPlayers ∧ mhas "2" snap = true :=
  C3_send_failure_removal envC3 stateC3 "2" p2C3 (by rfl) (Or.inl (by rfl))
    (by rfl)

/-- A payload with an unknown type tag. -/
def vUnknown : JSValue := .vObj [("type", .vStr "emote"), ("position", .vNum 1)]

/-- Witness for C10: an unknown-type message from the registered id "1". -/
theorem C10_liveness_refresh_witness :
    ∃ p', mget "1" (handleMessage envW 1 "1" (Raw.good vUnknown) sW).1.players =
        some p' ∧
      p'.lastUpdate = envW.now ∧
      p'.messagesReceived = pW.messagesReceived + 1 :=
  C10_liveness_refresh envW 1 "1" (Raw.good vUnknown) sW vUnknown pW (by rfl)
    (by rfl)
    (by intro h; injection h with h2; exact absurd h2 (by decide))

end GameServer
